import Mathlib

/-!
Shallow embedding of src/vs/editor/contrib/rename/onTypeRename.ts.

The source is the on-type-rename (linked editing) editor contribution: a
resolver that asks registered providers for a set of linked ranges, and a
controller that mirrors pure insertions made inside the first recorded
range onto a sibling range.  Machine integers of the source are embedded
as Int (JS numbers are integer-valued in this code); fallible paths are
embedded as Except, where Except.error models a thrown TypeError.
-/

/-- IRange (vs/editor/common/core/range): 1-based start and end
line/column of a document range. -/
structure IRange where
  startLineNumber : Int
  startColumn : Int
  endLineNumber : Int
  endColumn : Int
deriving DecidableEq

/-- isWithin (onTypeRename.ts lines 22-27): outer.startLineNumber <=
inner.startLineNumber, outer.endLineNumber >= inner.endLineNumber,
outer.startColumn <= inner.startColumn, outer.endColumn >= inner.endColumn. -/
def isWithin (inner outer : IRange) : Bool :=
  decide (outer.startLineNumber ≤ inner.startLineNumber) &&
  decide (outer.endLineNumber ≥ inner.endLineNumber) &&
  decide (outer.startColumn ≤ inner.startColumn) &&
  decide (outer.endColumn ≥ inner.endColumn)

/-- ITextModel.getOffsetAt for a document given as its list of lines:
the 0-based character offset of the 1-based (line, column) position,
counting one character per line break. -/
def getOffsetAt (doc : List String) (line col : Int) : Int :=
  ((doc.take (line - 1).toNat).map (fun s => (s.length : Int) + 1)).sum + (col - 1)

/-- One entry of IModelContentChangedEvent.changes: the replaced range,
its starting offset, its character length (0 for a pure insertion) and
the inserted text. -/
structure ContentChange where
  range : IRange
  rangeOffset : Int
  rangeLength : Int
  text : String
deriving DecidableEq

/-- One edit handed to ICodeEditor.executeEdits: a target range and its
replacement text. -/
structure Edit where
  range : IRange
  text : String
deriving DecidableEq

/-- The mutable fields of OnTypeRenameContribution (onTypeRename.ts lines
38-44): the enabled flag, the current cancelable request (by id), the
current decorations (kept as the decorated ranges), the recorded synced
ranges, plus bookkeeping for fresh request ids and for the set of request
ids whose promise has been cancelled. -/
structure CState where
  enabled : Bool
  currentRequest : Option Nat
  currentDecorations : List IRange
  syncedRanges : Option (List IRange)
  nextReq : Nat
  cancelledReqs : List Nat
deriving DecidableEq

/-- The mirrored edit built at onTypeRename.ts lines 89-104: a pure
insertion of the change text at the position on the second range's start
line whose column is the second range's start column plus the change
offset minus the offset of the first range's start. -/
def mirrorEdit (doc : List String) (c : ContentChange) (r0 r1 : IRange) : Edit :=
  ⟨⟨r1.startLineNumber,
    r1.startColumn + (c.rangeOffset - getOffsetAt doc r0.startLineNumber r0.startColumn),
    r1.startLineNumber,
    r1.startColumn + (c.rangeOffset - getOffsetAt doc r0.startLineNumber r0.startColumn)⟩,
   c.text⟩

/-- The onDidChangeModelContent handler (onTypeRename.ts lines 76-113).
It mutates no controller state; its only effect is the executeEdits call,
returned here as the list of issued edits.  With a recorded singleton
range set and an insertion inside that range, the source reads
this._syncedRanges[1].startLineNumber of undefined and throws; that path
is Except.error (). -/
def onModelContentChanged (s : CState) (doc : List String) (hasModel : Bool)
    (changes : List ContentChange) : Except Unit (CState × List Edit) :=
  match hasModel, changes with
  | false, _ => .ok (s, [])
  | true, [c] =>
      if c.rangeLength = 0 then
        match s.syncedRanges with
        | some (r0 :: r1 :: _) =>
            if isWithin c.range r0 then .ok (s, [mirrorEdit doc c r0 r1])
            else .ok (s, [])
        | some [r0] =>
            if isWithin c.range r0 then .error () else .ok (s, [])
        | some [] => .ok (s, [])
        | none => .ok (s, [])
      else .ok (s, [])
  | true, _ => .ok (s, [])

/-- OnTypeRenameContribution.stopAll (onTypeRename.ts lines 121-123):
this._currentDecorations = this._editor.deltaDecorations(this._currentDecorations, []).
It touches only the decorations; the request and the synced ranges are
left as they are. -/
def stopAll (s : CState) : CState :=
  { s with currentDecorations := [] }

/-- OnTypeRenameContribution.run (onTypeRename.ts lines 125-150): return
early when disabled, without a position, or without a model; otherwise
cancel and drop any current request and start a fresh one. -/
def run (s : CState) (hasPosition hasModel : Bool) : CState :=
  if !s.enabled || !hasPosition then s
  else if !hasModel then s
  else
    let s1 :=
      match s.currentRequest with
      | some r => { s with currentRequest := none, cancelledReqs := r :: s.cancelledReqs }
      | none => s
    { s1 with currentRequest := some s1.nextReq, nextReq := s1.nextReq + 1 }

/-- The onDidChangeConfiguration handler's branch for a change of the
autoRename option (onTypeRename.ts lines 60-66): store the new flag, then
stopAll, then run. -/
def onConfigChanged (s : CState) (newEnabled : Bool) (hasPosition hasModel : Bool) : CState :=
  run (stopAll { s with enabled := newEnabled }) hasPosition hasModel

/-- Modelled from the spec: createCancelablePromise and the promise
machinery of vs/base/common/async and onUnexpectedError of
vs/base/common/errors are part of this repository but not under src/.
Per the spec, a cancelled resolution settles silently and its result is
discarded without being applied or reported, so settling a cancelled
request leaves the state untouched; an uncancelled settlement runs the
success handler of run (onTypeRename.ts lines 142-149), which coerces a
null/undefined result to the empty array, records it as the synced
ranges and swaps the decorations to one per range. -/
def settle (s : CState) (r : Nat) (value : Option (List IRange)) : CState :=
  if r ∈ s.cancelledReqs then s
  else
    { s with syncedRanges := some (value.getD []),
             currentDecorations := value.getD [] }

/-- A registered on-type-rename provider, abstracted to its
provideOnTypeRenameRanges result as a function of whether the
cancellation token it receives is already cancelled: an ok value is a
resolved result (an array, null or undefined), an error is a rejection. -/
abbrev Provider := Bool → Except Unit (Option (List IRange))

/-- Modelled from the spec: arrays.isNonEmptyArray of
vs/base/common/arrays is part of this repository but not under src/; it
is true exactly for a present, non-empty array (the source comment at
onTypeRename.ts lines 157-159 reads: good = none empty array). -/
def isNonEmptyArray : Option (List IRange) → Bool
  | none => false
  | some l => !l.isEmpty

/-- Outcome of one resolver query: the value returned to the caller, the
number of providers that were invoked, and the number of errors reported
to the external unexpected-error sink. -/
structure ResolveOutcome where
  result : Option (List IRange)
  invoked : Nat
  reported : Nat
deriving DecidableEq

/-- Modelled from the spec: the combinator first of vs/base/common/async
is part of this repository but not under src/.  As called at
onTypeRename.ts lines 160-163 it receives only the provider thunks and
the isNonEmptyArray predicate - no cancellation token - and invokes the
thunks sequentially, short-circuiting on the first result satisfying the
predicate and yielding the default null when none does.  Each thunk
(lines 161-162) resolves the provider call and routes a rejection to
onUnexpectedExternalError, which reports it and yields undefined.  The
token handed to each provider is modelled by cancelAt: the provider
invoked as call number idx sees a cancelled token exactly when
cancelAt <= idx, so cancelAt below the list length is a cancellation
arriving mid-iteration.  The outcome records the providers invoked and
the errors reported. -/
def resolveFrom (cancelAt : Nat) : List Provider → Nat → ResolveOutcome
  | [], _ => ⟨none, 0, 0⟩
  | q :: rest, idx =>
      match q (decide (cancelAt ≤ idx)) with
      | .ok v =>
          if isNonEmptyArray v then ⟨v, 1, 0⟩
          else
            ⟨(resolveFrom cancelAt rest (idx + 1)).result,
             (resolveFrom cancelAt rest (idx + 1)).invoked + 1,
             (resolveFrom cancelAt rest (idx + 1)).reported⟩
      | .error _ =>
          ⟨(resolveFrom cancelAt rest (idx + 1)).result,
           (resolveFrom cancelAt rest (idx + 1)).invoked + 1,
           (resolveFrom cancelAt rest (idx + 1)).reported + 1⟩

/-- getOnTypeRenameRanges (onTypeRename.ts lines 153-164), over the
priority-ordered provider list that OnTypeRenameProviderRegistry.ordered
returns (the registry is part of this repository but not under src/, so
the ordered list is taken as given). -/
def getOnTypeRenameRanges (providers : List Provider) (cancelAt : Nat) : ResolveOutcome :=
  resolveFrom cancelAt providers 0

/-- A provider result that the resolver does not accept: any rejection,
and any resolved value that is not a non-empty array. -/
def noGoodResult (r : Except Unit (Option (List IRange))) : Prop :=
  ∀ v, r = Except.ok v → isNonEmptyArray v = false

/-- Spec-side helper for comparing position order: (l1, c1) is at or
before (l2, c2) in document order. -/
def posLE (l1 c1 l2 c2 : Int) : Bool :=
  decide (l1 < l2) || (decide (l1 = l2) && decide (c1 ≤ c2))

/-- Spec-side definition, following the claim's words: the point
(line, col) lies within the range's span, inclusive of both boundaries,
in document order. -/
def specWithinSpanInclusive (line col : Int) (r : IRange) : Bool :=
  posLE r.startLineNumber r.startColumn line col &&
  posLE line col r.endLineNumber r.endColumn

/-- An incoming change event that does not classify as mirrorable against
the recorded range set: a multi-change or empty event, a change that
deletes characters, or an insertion that is not within the first recorded
range. -/
def nonMirrorable (sr : Option (List IRange)) (changes : List ContentChange) : Bool :=
  match changes, sr with
  | [c], some (r0 :: _) => decide (c.rangeLength ≠ 0) || !(isWithin c.range r0)
  | [_], _ => false
  | _, _ => true

/-- C9 evaluation: with a recorded singleton range set and a single pure
insertion inside that range, the handler dereferences the missing second
range and throws (Except.error). -/
theorem c9_singleton_insertion_throws :
    onModelContentChanged ⟨true, none, [], some [⟨1, 5, 1, 10⟩], 0, []⟩ [] true
        [⟨⟨1, 7, 1, 7⟩, 6, 0, "x"⟩] = Except.error () := rfl

/-- C1 counterexample: in a Synced state with three recorded ranges, a
pure insertion of x at L1:7 (offset 2 into the primary range) issues
exactly one edit, aimed at the second range only - the third range
receives nothing - and the returned state still records the original,
unwidened ranges. -/
theorem c1_counterexample :
    onModelContentChanged
        ⟨true, none, [], some [⟨1, 5, 1, 10⟩, ⟨5, 2, 5, 7⟩, ⟨7, 3, 7, 8⟩], 0, []⟩ [] true
        [⟨⟨1, 7, 1, 7⟩, 6, 0, "x"⟩] =
      Except.ok (⟨true, none, [], some [⟨1, 5, 1, 10⟩, ⟨5, 2, 5, 7⟩, ⟨7, 3, 7, 8⟩], 0, []⟩,
        [⟨⟨5, 4, 5, 4⟩, "x"⟩]) := rfl

/-- C8 counterexample: disabling the feature via configuration while a
request is pending and ranges are recorded leaves the pending request
uncancelled and the recorded range set intact (only the decorations are
emptied). -/
theorem c8_counterexample :
    (onConfigChanged ⟨true, some 0, [⟨1, 5, 1, 10⟩], some [⟨1, 5, 1, 10⟩, ⟨5, 2, 5, 7⟩], 1, []⟩
        false true true).currentRequest = some 0 ∧
    (onConfigChanged ⟨true, some 0, [⟨1, 5, 1, 10⟩], some [⟨1, 5, 1, 10⟩, ⟨5, 2, 5, 7⟩], 1, []⟩
        false true true).cancelledReqs = [] ∧
    (onConfigChanged ⟨true, some 0, [⟨1, 5, 1, 10⟩], some [⟨1, 5, 1, 10⟩, ⟨5, 2, 5, 7⟩], 1, []⟩
        false true true).syncedRanges = some [⟨1, 5, 1, 10⟩, ⟨5, 2, 5, 7⟩] :=
  ⟨rfl, rfl, rfl⟩

/-- C3 counterexample: a deletion arriving in a Synced state is answered
with no mirrored edit and an unchanged state: the recorded range set and
the decorations are not cleared, so there is no transition to Idle. -/
theorem c3_counterexample :
    onModelContentChanged
        ⟨true, none, [⟨1, 5, 1, 10⟩, ⟨5, 2, 5, 7⟩], some [⟨1, 5, 1, 10⟩, ⟨5, 2, 5, 7⟩], 0, []⟩
        [] true [⟨⟨1, 7, 1, 8⟩, 6, 1, ""⟩] =
      Except.ok
        (⟨true, none, [⟨1, 5, 1, 10⟩, ⟨5, 2, 5, 7⟩], some [⟨1, 5, 1, 10⟩, ⟨5, 2, 5, 7⟩], 0, []⟩,
         []) := rfl

/-- C6 counterexample: with the token cancelled after the first provider
call (cancelAt 1, mid-iteration), the second provider is still invoked
and its non-empty result is accepted: the resolver neither stops nor
returns no-result. -/
theorem c6_counterexample :
    getOnTypeRenameRanges
        [(fun _ => Except.ok none : Provider),
         (fun _ => Except.ok (some [⟨1, 1, 1, 2⟩]) : Provider)] 1 =
      ⟨some [⟨1, 1, 1, 2⟩], 2, 0⟩ := rfl

/-- Helper: the isWithin test of the source, applied to a point-shaped
change range, implies the spec-side document-order span membership,
inclusive of both boundaries. -/
theorem isWithin_point_spec (inner r : IRange)
    (hl : inner.startLineNumber = inner.endLineNumber)
    (hc : inner.startColumn = inner.endColumn)
    (h : isWithin inner r = true) :
    specWithinSpanInclusive inner.startLineNumber inner.startColumn r = true := by
  simp only [isWithin, Bool.and_eq_true, decide_eq_true_eq, ge_iff_le] at h
  simp only [specWithinSpanInclusive, posLE, Bool.or_eq_true, Bool.and_eq_true,
    decide_eq_true_eq]
  omega

/-- Helper: with at least two recorded ranges, a single pure insertion
whose range passes isWithin against the first range makes the handler
issue exactly the mirrored edit aimed at the second range, leaving the
controller state unchanged. -/
theorem contentChanged_eligible (s : CState) (doc : List String) (c : ContentChange)
    (r0 r1 : IRange) (rest : List IRange)
    (hsr : s.syncedRanges = some (r0 :: r1 :: rest))
    (hlen : c.rangeLength = 0) (hin : isWithin c.range r0 = true) :
    onModelContentChanged s doc true [c] = Except.ok (s, [mirrorEdit doc c r0 r1]) := by
  simp [onModelContentChanged, hsr, hlen, hin]

/-- Helper: the configuration handler with the feature turning off only
stores the flag and empties the decorations; run returns early, so the
pending request and the synced ranges are untouched. -/
theorem configDisable_state (s : CState) (hp hm : Bool) :
    onConfigChanged s false hp hm = { s with enabled := false, currentDecorations := [] } := by
  obtain ⟨en, cr, cd, sr, nr, cq⟩ := s
  rfl

/-- Helper: when every provider resolves to a value that is not a
non-empty array (or rejects), the resolver walks the whole list and
returns the null default. -/
theorem resolveFrom_all_bad (k : Nat) (ps : List Provider)
    (h : ∀ q ∈ ps, ∀ b, noGoodResult (q b)) (idx : Nat) :
    (resolveFrom k ps idx).result = none ∧ (resolveFrom k ps idx).invoked = ps.length := by
  induction ps generalizing idx with
  | nil => exact ⟨rfl, rfl⟩
  | cons q rest ih =>
    have hrest : ∀ p ∈ rest, ∀ b, noGoodResult (p b) :=
      fun p hp b => h p (List.mem_cons_of_mem _ hp) b
    have hq := h q (List.mem_cons_self _ _) (decide (k ≤ idx))
    have hih := ih hrest (idx + 1)
    cases hqb : q (decide (k ≤ idx)) with
    | ok v =>
      have hvb : isNonEmptyArray v = false := hq v hqb
      simp only [resolveFrom, hqb, hvb, Bool.false_eq_true, if_false, List.length_cons]
      exact ⟨hih.1, by rw [hih.2]⟩
    | error e =>
      simp only [resolveFrom, hqb, List.length_cons]
      exact ⟨hih.1, by rw [hih.2]⟩

/-- Helper: when every provider before p yields no acceptable result and
p resolves to the non-empty array v for any token, the resolver accepts v
having invoked exactly the providers up to and including p. -/
theorem resolveFrom_first_good (k : Nat) (pre : List Provider) (p : Provider)
    (post : List Provider) (v : List IRange)
    (hpre : ∀ q ∈ pre, ∀ b, noGoodResult (q b))
    (hp : ∀ b, p b = Except.ok (some v)) (hv : v ≠ []) (idx : Nat) :
    (resolveFrom k (pre ++ p :: post) idx).result = some v ∧
    (resolveFrom k (pre ++ p :: post) idx).invoked = pre.length + 1 := by
  induction pre generalizing idx with
  | nil =>
    have hgood : isNonEmptyArray (some v) = true := by
      cases v with
      | nil => exact absurd rfl hv
      | cons a t => rfl
    simp [resolveFrom, hp, hgood]
  | cons q rest ih =>
    have hq := hpre q (List.mem_cons_self _ _) (decide (k ≤ idx))
    have hrest : ∀ r ∈ rest, ∀ b, noGoodResult (r b) :=
      fun r hr b => hpre r (List.mem_cons_of_mem _ hr) b
    have hih := ih hrest (idx + 1)
    cases hqb : q (decide (k ≤ idx)) with
    | ok w =>
      have hwb : isNonEmptyArray w = false := hq w hqb
      simp only [List.cons_append, List.append_eq, resolveFrom, hqb, hwb,
        Bool.false_eq_true, if_false, List.length_cons]
      refine ⟨hih.1, ?_⟩
      have h2 : (resolveFrom k (rest ++ p :: post) (idx + 1)).invoked = rest.length + 1 :=
        hih.2
      omega
    | error e =>
      simp only [List.cons_append, List.append_eq, resolveFrom, hqb, List.length_cons]
      refine ⟨hih.1, ?_⟩
      have h2 : (resolveFrom k (rest ++ p :: post) (idx + 1)).invoked = rest.length + 1 :=
        hih.2
      omega

/-- Helper: a provider that rejects is skipped over: the resolver result
is whatever the later providers yield, with one more error reported. -/
theorem resolveFrom_error_mid (k : Nat) (pre : List Provider) (p : Provider)
    (post : List Provider)
    (hpre : ∀ q ∈ pre, ∀ b, ∃ w, q b = Except.ok w ∧ isNonEmptyArray w = false)
    (hperr : ∀ b, p b = Except.error ()) (idx : Nat) :
    (resolveFrom k (pre ++ p :: post) idx).result =
      (resolveFrom k post (idx + pre.length + 1)).result ∧
    (resolveFrom k (pre ++ p :: post) idx).reported =
      (resolveFrom k post (idx + pre.length + 1)).reported + 1 := by
  induction pre generalizing idx with
  | nil =>
    simp [resolveFrom, hperr]
  | cons q rest ih =>
    obtain ⟨w, hw, hwb⟩ := hpre q (List.mem_cons_self _ _) (decide (k ≤ idx))
    have hrest : ∀ r ∈ rest, ∀ b, ∃ u, r b = Except.ok u ∧ isNonEmptyArray u = false :=
      fun r hr b => hpre r (List.mem_cons_of_mem _ hr) b
    have hih := ih hrest (idx + 1)
    have harith : idx + 1 + rest.length + 1 = idx + (rest.length + 1) + 1 := by omega
    rw [harith] at hih
    simp only [List.cons_append, List.append_eq, resolveFrom, hw, hwb, Bool.false_eq_true,
      if_false, List.length_cons]
    exact ⟨hih.1, hih.2⟩

/-- C1 (amended): when a single pure insertion passes the isWithin test
against the first recorded range and at least two ranges are recorded,
the controller issues one insertion of the identical text, aimed only at
the second recorded range, at the position on that range's start line
whose column is the range's start column plus the insertion's offset
minus the primary range's start offset; the recorded range set and the
rest of the controller state are left unchanged. -/
theorem c1_amended_mirror (s : CState) (doc : List String) (c : ContentChange)
    (r0 r1 : IRange) (rest : List IRange)
    (hsr : s.syncedRanges = some (r0 :: r1 :: rest))
    (hlen : c.rangeLength = 0) (hin : isWithin c.range r0 = true) :
    onModelContentChanged s doc true [c] = Except.ok (s, [mirrorEdit doc c r0 r1]) :=
  contentChanged_eligible s doc c r0 r1 rest hsr hlen hin

/-- C1 witness: the spec's own example.  Primary range L1 columns 5-10,
mirror range L5 columns 2-7, insertion of x at L1:7 (rangeOffset 6,
which is offset 2 into the primary range): the handler issues one
insertion of x at L5:4 and the state keeps the original ranges. -/
theorem c1_amended_mirror_witness :
    onModelContentChanged ⟨true, none, [], some [⟨1, 5, 1, 10⟩, ⟨5, 2, 5, 7⟩], 0, []⟩ [] true
        [⟨⟨1, 7, 1, 7⟩, 6, 0, "x"⟩] =
      Except.ok (⟨true, none, [], some [⟨1, 5, 1, 10⟩, ⟨5, 2, 5, 7⟩], 0, []⟩,
        [⟨⟨5, 4, 5, 4⟩, "x"⟩]) :=
  c1_amended_mirror ⟨true, none, [], some [⟨1, 5, 1, 10⟩, ⟨5, 2, 5, 7⟩], 0, []⟩ []
    ⟨⟨1, 7, 1, 7⟩, 6, 0, "x"⟩ ⟨1, 5, 1, 10⟩ ⟨5, 2, 5, 7⟩ [] rfl rfl (by decide)

/-- C2: an edit is mirrored only if the event has exactly one change,
that change deletes zero characters, and the insertion point lies within
the first recorded range's span inclusive of both boundaries; moreover
any event that is not a single change yields no mirrored edit. -/
theorem c2_mirror_only_if (s : CState) (doc : List String) (c : ContentChange)
    (es : List Edit)
    (hl : c.range.startLineNumber = c.range.endLineNumber)
    (hc : c.range.startColumn = c.range.endColumn)
    (hok : onModelContentChanged s doc true [c] = Except.ok (s, es))
    (hne : es ≠ []) :
    (c.rangeLength = 0 ∧
      ∃ r0 rest, s.syncedRanges = some (r0 :: rest) ∧
        specWithinSpanInclusive c.range.startLineNumber c.range.startColumn r0 = true) ∧
    ∀ cs : List ContentChange, cs.length ≠ 1 →
      onModelContentChanged s doc true cs = Except.ok (s, []) := by
  constructor
  · simp only [onModelContentChanged] at hok
    by_cases h0 : c.rangeLength = 0
    · rw [if_pos h0] at hok
      split at hok
      · rename_i r0 r1 tail heq
        split at hok
        · rename_i hin
          simp only [Except.ok.injEq, Prod.mk.injEq, true_and] at hok
          exact ⟨h0, r0, r1 :: tail, heq, isWithin_point_spec c.range r0 hl hc hin⟩
        · simp only [Except.ok.injEq, Prod.mk.injEq, true_and] at hok
          exact absurd hok.symm hne
      · rename_i r0 heq
        split at hok
        · exact absurd hok (by simp)
        · simp only [Except.ok.injEq, Prod.mk.injEq, true_and] at hok
          exact absurd hok.symm hne
      · simp only [Except.ok.injEq, Prod.mk.injEq, true_and] at hok
        exact absurd hok.symm hne
      · simp only [Except.ok.injEq, Prod.mk.injEq, true_and] at hok
        exact absurd hok.symm hne
    · rw [if_neg h0] at hok
      simp only [Except.ok.injEq, Prod.mk.injEq, true_and] at hok
      exact absurd hok.symm hne
  · intro cs hcs
    cases cs with
    | nil => rfl
    | cons a t =>
      cases t with
      | nil => exact absurd rfl hcs
      | cons b t2 => rfl

/-- C2 witness: the eligible insertion of the spec's example does fire a
mirrored edit, and its classification facts hold. -/
theorem c2_mirror_only_if_witness :
    ((⟨⟨1, 7, 1, 7⟩, 6, 0, "x"⟩ : ContentChange).rangeLength = 0 ∧
      ∃ r0 rest,
        (⟨true, none, [], some [⟨1, 5, 1, 10⟩, ⟨5, 2, 5, 7⟩], 0, []⟩ : CState).syncedRanges =
          some (r0 :: rest) ∧
        specWithinSpanInclusive 1 7 r0 = true) ∧
    ∀ cs : List ContentChange, cs.length ≠ 1 →
      onModelContentChanged ⟨true, none, [], some [⟨1, 5, 1, 10⟩, ⟨5, 2, 5, 7⟩], 0, []⟩ [] true
          cs =
        Except.ok (⟨true, none, [], some [⟨1, 5, 1, 10⟩, ⟨5, 2, 5, 7⟩], 0, []⟩, []) :=
  c2_mirror_only_if ⟨true, none, [], some [⟨1, 5, 1, 10⟩, ⟨5, 2, 5, 7⟩], 0, []⟩ []
    ⟨⟨1, 7, 1, 7⟩, 6, 0, "x"⟩
    [mirrorEdit [] ⟨⟨1, 7, 1, 7⟩, 6, 0, "x"⟩ ⟨1, 5, 1, 10⟩ ⟨5, 2, 5, 7⟩]
    rfl rfl rfl (by simp)

/-- C3 (amended): an edit that does not classify as mirrorable (a
multi-change event, a change that deletes characters, or an insertion
not within the first recorded range) triggers no action at all: no
mirrored edit is issued and the controller state - recorded range set
and decorations included - is left exactly as it was, with no transition
and no clearing. -/
theorem c3_amended_noop (s : CState) (doc : List String) (changes : List ContentChange)
    (h : nonMirrorable s.syncedRanges changes = true) :
    onModelContentChanged s doc true changes = Except.ok (s, []) := by
  cases changes with
  | nil => rfl
  | cons c tail =>
    cases tail with
    | cons c2 t2 => rfl
    | nil =>
      rcases hsr : s.syncedRanges with _ | rs
      · simp [onModelContentChanged, hsr]
      · cases rs with
        | nil => simp [nonMirrorable, hsr] at h
        | cons r0 rtail =>
          simp only [nonMirrorable, hsr, Bool.or_eq_true, decide_eq_true_eq,
            Bool.not_eq_true'] at h
          cases rtail with
          | nil =>
            rcases h with h | h
            · simp [onModelContentChanged, hsr, h]
            · simp [onModelContentChanged, hsr, h]
          | cons r1 t =>
            rcases h with h | h
            · simp [onModelContentChanged, hsr, h]
            · simp [onModelContentChanged, hsr, h]

/-- C3 witness: a deletion (rangeLength 1) arriving with two recorded
ranges is answered with no edit and an unchanged state. -/
theorem c3_amended_noop_witness :
    onModelContentChanged ⟨true, some 2, [], some [⟨1, 5, 1, 10⟩, ⟨5, 2, 5, 7⟩], 3, []⟩ []
        true [⟨⟨1, 7, 1, 8⟩, 6, 1, ""⟩] =
      Except.ok (⟨true, some 2, [], some [⟨1, 5, 1, 10⟩, ⟨5, 2, 5, 7⟩], 3, []⟩, []) :=
  c3_amended_noop ⟨true, some 2, [], some [⟨1, 5, 1, 10⟩, ⟨5, 2, 5, 7⟩], 3, []⟩ []
    [⟨⟨1, 7, 1, 8⟩, 6, 1, ""⟩] (by decide)

/-- C4: the resolver invokes the priority-ordered providers one at a
time, accepts the first non-empty array without invoking any provider
after it (exactly pre.length + 1 invocations), and returns the null
no-result when every provider yields an empty, null/undefined or failing
result. -/
theorem c4_resolver_priority (pre post : List Provider) (p : Provider) (v : List IRange)
    (k : Nat)
    (hpre : ∀ q ∈ pre, ∀ b, noGoodResult (q b))
    (hp : ∀ b, p b = Except.ok (some v)) (hv : v ≠ []) :
    (getOnTypeRenameRanges (pre ++ p :: post) k).result = some v ∧
    (getOnTypeRenameRanges (pre ++ p :: post) k).invoked = pre.length + 1 ∧
    ∀ ps : List Provider, (∀ q ∈ ps, ∀ b, noGoodResult (q b)) →
      (getOnTypeRenameRanges ps k).result = none := by
  have h1 := resolveFrom_first_good k pre p post v hpre hp hv 0
  exact ⟨h1.1, h1.2, fun ps hps => (resolveFrom_all_bad k ps hps 0).1⟩

/-- C4 witness: with provider 1 of 2 returning a non-empty result, that
result is accepted and exactly one provider is invoked. -/
theorem c4_resolver_priority_witness :
    (getOnTypeRenameRanges
        [(fun _ => Except.ok (some [⟨1, 1, 1, 2⟩]) : Provider),
         (fun _ => Except.ok (some [⟨9, 9, 9, 9⟩]) : Provider)] 5).result =
      some [⟨1, 1, 1, 2⟩] ∧
    (getOnTypeRenameRanges
        [(fun _ => Except.ok (some [⟨1, 1, 1, 2⟩]) : Provider),
         (fun _ => Except.ok (some [⟨9, 9, 9, 9⟩]) : Provider)] 5).invoked = 1 ∧
    ∀ ps : List Provider, (∀ q ∈ ps, ∀ b, noGoodResult (q b)) →
      (getOnTypeRenameRanges ps 5).result = none :=
  c4_resolver_priority [] [(fun _ => Except.ok (some [⟨9, 9, 9, 9⟩]) : Provider)]
    (fun _ => Except.ok (some [⟨1, 1, 1, 2⟩])) [⟨1, 1, 1, 2⟩] 5
    (fun q hq => absurd hq (List.not_mem_nil q)) (fun _ => rfl) (by simp)

/-- C5: at most one resolution is outstanding: run first cancels and
discards a pending request before recording the fresh one as current,
and settling a cancelled request leaves the controller state exactly
unchanged - its result is never applied to the range set or decorations
and nothing is reported. -/
theorem c5_single_outstanding (s : CState) (a r : Nat) (v : Option (List IRange))
    (hen : s.enabled = true) (hcur : s.currentRequest = some a)
    (hcanc : r ∈ s.cancelledReqs) :
    (run s true true).currentRequest = some s.nextReq ∧
    a ∈ (run s true true).cancelledReqs ∧
    settle s r v = s := by
  obtain ⟨en, cr, cd, sr, nr, cq⟩ := s
  dsimp only at hen hcur ⊢
  subst hen
  subst hcur
  refine ⟨rfl, ?_, ?_⟩
  · exact List.mem_cons_self _ _
  · simp only [settle]
    rw [if_pos hcanc]

/-- C5 witness: starting a run over a pending request 0 cancels it and
installs the fresh request 1; settling the already-cancelled request 7
changes nothing. -/
theorem c5_single_outstanding_witness :
    (run ⟨true, some 0, [], some [], 1, [7]⟩ true true).currentRequest = some 1 ∧
    0 ∈ (run ⟨true, some 0, [], some [], 1, [7]⟩ true true).cancelledReqs ∧
    settle ⟨true, some 0, [], some [], 1, [7]⟩ 7 (some [⟨1, 1, 1, 2⟩]) =
      ⟨true, some 0, [], some [], 1, [7]⟩ :=
  c5_single_outstanding ⟨true, some 0, [], some [], 1, [7]⟩ 0 7 (some [⟨1, 1, 1, 2⟩])
    rfl rfl (by decide)

/-- C6 (amended): the resolver performs no token check between provider
invocations: whenever every provider cooperatively yields no acceptable
result under any token state, the whole list is walked - every provider
is invoked, for any cancellation point, including a token cancelled
before the first call - and only then is the null no-result returned. -/
theorem c6_amended_no_token_check (ps : List Provider) (k : Nat)
    (h : ∀ q ∈ ps, ∀ b, noGoodResult (q b)) :
    (getOnTypeRenameRanges ps k).result = none ∧
    (getOnTypeRenameRanges ps k).invoked = ps.length :=
  resolveFrom_all_bad k ps h 0

/-- C6 witness: with the token cancelled from the start (cancelAt 0) and
two cooperating providers, both providers are still invoked. -/
theorem c6_amended_no_token_check_witness :
    (getOnTypeRenameRanges
        [(fun _ => Except.ok none : Provider), (fun _ => Except.ok (some []) : Provider)]
        0).result = none ∧
    (getOnTypeRenameRanges
        [(fun _ => Except.ok none : Provider), (fun _ => Except.ok (some []) : Provider)]
        0).invoked = 2 :=
  c6_amended_no_token_check
    [(fun _ => Except.ok none : Provider), (fun _ => Except.ok (some []) : Provider)] 0
    (by
      intro q hq b w hw
      rcases List.mem_cons.mp hq with h1 | h1
      · subst h1
        cases hw
        rfl
      · rcases List.mem_cons.mp h1 with h2 | h2
        · subst h2
          cases hw
          rfl
        · exact absurd h2 (List.not_mem_nil q))

/-- C7: a provider that rejects is treated exactly as a no-result
provider: the resolver's answer is whatever the remaining providers
yield - a single failing provider never aborts the resolution - and the
failure is reported to the external unexpected-error sink (the reported
count rises by one) instead of being propagated, the resolver's outcome
being total by construction. -/
theorem c7_provider_error_caught (pre post : List Provider) (p : Provider) (k : Nat)
    (hpre : ∀ q ∈ pre, ∀ b, ∃ w, q b = Except.ok w ∧ isNonEmptyArray w = false)
    (hperr : ∀ b, p b = Except.error ()) :
    (getOnTypeRenameRanges (pre ++ p :: post) k).result =
      (resolveFrom k post (pre.length + 1)).result ∧
    (getOnTypeRenameRanges (pre ++ p :: post) k).reported =
      (resolveFrom k post (pre.length + 1)).reported + 1 := by
  have h := resolveFrom_error_mid k pre p post hpre hperr 0
  simpa [getOnTypeRenameRanges] using h

/-- C7 witness: a first provider that rejects is reported and skipped;
the second provider's non-empty result is still accepted. -/
theorem c7_provider_error_caught_witness :
    (getOnTypeRenameRanges
        ((fun _ => Except.error () : Provider) ::
          [(fun _ => Except.ok (some [⟨1, 1, 1, 2⟩]) : Provider)]) 9).result =
      (resolveFrom 9 [(fun _ => Except.ok (some [⟨1, 1, 1, 2⟩]) : Provider)] 1).result ∧
    (getOnTypeRenameRanges
        ((fun _ => Except.error () : Provider) ::
          [(fun _ => Except.ok (some [⟨1, 1, 1, 2⟩]) : Provider)]) 9).reported =
      (resolveFrom 9 [(fun _ => Except.ok (some [⟨1, 1, 1, 2⟩]) : Provider)] 1).reported + 1 :=
  c7_provider_error_caught [] [(fun _ => Except.ok (some [⟨1, 1, 1, 2⟩]) : Provider)]
    (fun _ => Except.error ()) 9 (fun q hq => absurd hq (List.not_mem_nil q)) (fun _ => rfl)

/-- C8 (amended): disabling the feature via configuration, in any state,
clears all decorations (an empty delta-decoration target set) and stores
the disabled flag, and does nothing else: the pending resolution is not
cancelled and the recorded range set is not cleared. -/
theorem c8_amended_disable (s : CState) (hp hm : Bool) :
    onConfigChanged s false hp hm = { s with enabled := false, currentDecorations := [] } :=
  configDisable_state s hp hm

/-- C10: the mirroring path consults only the recorded range set and
never the enabled flag, and stopAll clears only decorations: after the
feature is disabled via configuration, a state still recording at least
two ranges still mirrors a single pure insertion inside the first range
onto the second range. -/
theorem c10_mirror_after_disable (s : CState) (doc : List String) (c : ContentChange)
    (r0 r1 : IRange) (rest : List IRange) (hp hm : Bool)
    (hsr : s.syncedRanges = some (r0 :: r1 :: rest))
    (hlen : c.rangeLength = 0) (hin : isWithin c.range r0 = true) :
    (onConfigChanged s false hp hm).enabled = false ∧
    (stopAll s).syncedRanges = s.syncedRanges ∧
    (onConfigChanged s false hp hm).syncedRanges = some (r0 :: r1 :: rest) ∧
    onModelContentChanged (onConfigChanged s false hp hm) doc true [c] =
      Except.ok (onConfigChanged s false hp hm, [mirrorEdit doc c r0 r1]) := by
  have hcfg := configDisable_state s hp hm
  refine ⟨by rw [hcfg], rfl, by rw [hcfg]; exact hsr, ?_⟩
  exact contentChanged_eligible _ doc c r0 r1 rest (by rw [hcfg]; exact hsr) hlen hin

/-- C10 witness: the spec example's Synced state, disabled via
configuration, still mirrors the insertion of x at L1:7 onto L5:4. -/
theorem c10_mirror_after_disable_witness :
    (onConfigChanged ⟨true, some 3, [⟨1, 5, 1, 10⟩, ⟨5, 2, 5, 7⟩],
        some [⟨1, 5, 1, 10⟩, ⟨5, 2, 5, 7⟩], 4, []⟩ false true true).enabled = false ∧
    (stopAll ⟨true, some 3, [⟨1, 5, 1, 10⟩, ⟨5, 2, 5, 7⟩],
        some [⟨1, 5, 1, 10⟩, ⟨5, 2, 5, 7⟩], 4, []⟩).syncedRanges =
      (⟨true, some 3, [⟨1, 5, 1, 10⟩, ⟨5, 2, 5, 7⟩],
        some [⟨1, 5, 1, 10⟩, ⟨5, 2, 5, 7⟩], 4, []⟩ : CState).syncedRanges ∧
    (onConfigChanged ⟨true, some 3, [⟨1, 5, 1, 10⟩, ⟨5, 2, 5, 7⟩],
        some [⟨1, 5, 1, 10⟩, ⟨5, 2, 5, 7⟩], 4, []⟩ false true true).syncedRanges =
      some [⟨1, 5, 1, 10⟩, ⟨5, 2, 5, 7⟩] ∧
    onModelContentChanged
        (onConfigChanged ⟨true, some 3, [⟨1, 5, 1, 10⟩, ⟨5, 2, 5, 7⟩],
          some [⟨1, 5, 1, 10⟩, ⟨5, 2, 5, 7⟩], 4, []⟩ false true true) [] true
        [⟨⟨1, 7, 1, 7⟩, 6, 0, "x"⟩] =
      Except.ok
        (onConfigChanged ⟨true, some 3, [⟨1, 5, 1, 10⟩, ⟨5, 2, 5, 7⟩],
          some [⟨1, 5, 1, 10⟩, ⟨5, 2, 5, 7⟩], 4, []⟩ false true true,
         [mirrorEdit [] ⟨⟨1, 7, 1, 7⟩, 6, 0, "x"⟩ ⟨1, 5, 1, 10⟩ ⟨5, 2, 5, 7⟩]) :=
  c10_mirror_after_disable
    ⟨true, some 3, [⟨1, 5, 1, 10⟩, ⟨5, 2, 5, 7⟩], some [⟨1, 5, 1, 10⟩, ⟨5, 2, 5, 7⟩], 4, []⟩
    [] ⟨⟨1, 7, 1, 7⟩, 6, 0, "x"⟩ ⟨1, 5, 1, 10⟩ ⟨5, 2, 5, 7⟩ [] true true rfl rfl (by decide)
